import Mathlib

/-!
Verification of the TripPlaner itinerary generation-and-validation core.

The definitions below are a shallow embedding of the JavaScript source:

* `src/server/routes/trip.js` — `validateORSRoutesAndDistances` (the
  Itinerary Validator), the `/plan` generation–validation loop (the
  Orchestrator), and the finalization step that overwrites the model's
  self-reported distances with oracle-measured values;
* `src/client/src/pages/TripPlan.js` (and the identical unnamed client
  variants) — `normalize`, `validateCountry`, `validateCity` and the
  `handleSubmit` control flow (the client-side geocoding gate).

JavaScript numbers are modelled as `ℚ`; a JS value that may be a
non-number (`typeof x === 'number'` fails) is modelled as `Option ℚ`
with `none` for the non-number case.  Network calls are modelled by
passing the remote service's behaviour as a function argument: an
`axios` call that may throw is a function returning a sum type with an
explicit "thrown" constructor, so a JS `try/catch` becomes a `match`.
-/

namespace TripPlanner

/-! ## Characters used by the JSON scanner

Written via `Char.ofNat` so the file contains no brace characters in
literals. -/

def lbraceChar : Char := Char.ofNat 123

def rbraceChar : Char := Char.ofNat 125

def quoteChar : Char := Char.ofNat 34

def backslashChar : Char := Char.ofNat 92

/-! ## A model of `JSON.parse` success/failure

The `/plan` handler calls `JSON.parse` on the (extracted) model reply
and only distinguishes success from a thrown `SyntaxError`.  We model
that verdict by a recursive-descent recogniser for the JSON grammar
(ECMA-404): `jsonValid s = true` iff `JSON.parse(s)` succeeds.  The
recogniser is fuelled; every fuel step consumes at least one character
per three ticks, so `4 * length + 4` fuel is always sufficient. -/

def isJsonWs (c : Char) : Bool :=
  c = ' ' || c = '\t' || c = '\n' || c = '\r'

def skipWs (cs : List Char) : List Char :=
  cs.dropWhile isJsonWs

def isDigitC (c : Char) : Bool := '0' ≤ c && c ≤ '9'

def isHexC (c : Char) : Bool :=
  isDigitC c || ('a' ≤ c && c ≤ 'f') || ('A' ≤ c && c ≤ 'F')

/-- Consume the rest of a JSON string literal (the opening quote has
already been consumed); returns the input remaining after the closing
quote, or `none` if the literal is malformed. -/
def jsonStringRest : List Char → Option (List Char)
  | [] => none
  | c :: rest =>
    if c = quoteChar then some rest
    else if c = backslashChar then
      match rest with
      | [] => none
      | e :: r2 =>
        if e = quoteChar ∨ e = backslashChar ∨ e = '/' ∨ e = 'b' ∨ e = 'f'
            ∨ e = 'n' ∨ e = 'r' ∨ e = 't' then
          jsonStringRest r2
        else if e = 'u' then
          match r2 with
          | h1 :: h2 :: h3 :: h4 :: r3 =>
            if isHexC h1 && isHexC h2 && isHexC h3 && isHexC h4 then
              jsonStringRest r3
            else none
          | _ => none
        else none
    else if c.toNat < 32 then none
    else jsonStringRest rest

/-- Consume a JSON exponent part, if present. -/
def jsonExp (cs : List Char) : Option (List Char) :=
  match cs with
  | c :: r =>
    if c = 'e' ∨ c = 'E' then
      let r1 := match r with
        | c2 :: r2 => if c2 = '+' ∨ c2 = '-' then r2 else r
        | [] => r
      match r1 with
      | c3 :: _ => if isDigitC c3 then some (r1.dropWhile isDigitC) else none
      | [] => none
    else some cs
  | [] => some cs

/-- Consume a JSON fraction part, if present, then an exponent. -/
def jsonFrac (cs : List Char) : Option (List Char) :=
  match cs with
  | '.' :: r =>
    match r with
    | c :: _ => if isDigitC c then jsonExp (r.dropWhile isDigitC) else none
    | [] => none
  | _ => jsonExp cs

/-- Consume a JSON number. -/
def jsonNumberRest (cs : List Char) : Option (List Char) :=
  let cs1 := match cs with
    | c :: r => if c = '-' then r else cs
    | [] => cs
  match cs1 with
  | [] => none
  | c :: r =>
    if c = '0' then jsonFrac r
    else if isDigitC c then jsonFrac (r.dropWhile isDigitC)
    else none

mutual

/-- Consume one JSON value (leading whitespace allowed). -/
def jsonValue : Nat → List Char → Option (List Char)
  | 0, _ => none
  | fuel + 1, cs =>
    match skipWs cs with
    | [] => none
    | c :: rest =>
      if c = lbraceChar then jsonObjectBody fuel rest
      else if c = '[' then jsonArrayBody fuel rest
      else if c = quoteChar then jsonStringRest rest
      else if c = 't' then
        match rest with
        | 'r' :: 'u' :: 'e' :: r => some r
        | _ => none
      else if c = 'f' then
        match rest with
        | 'a' :: 'l' :: 's' :: 'e' :: r => some r
        | _ => none
      else if c = 'n' then
        match rest with
        | 'u' :: 'l' :: 'l' :: r => some r
        | _ => none
      else jsonNumberRest (c :: rest)

/-- Consume the body of a JSON object (the opening brace has been
consumed). -/
def jsonObjectBody : Nat → List Char → Option (List Char)
  | 0, _ => none
  | fuel + 1, cs =>
    match skipWs cs with
    | [] => none
    | c :: rest =>
      if c = rbraceChar then some rest else jsonMember fuel (c :: rest)

/-- Consume one `"key": value` member and the object's remaining
members. -/
def jsonMember : Nat → List Char → Option (List Char)
  | 0, _ => none
  | fuel + 1, cs =>
    match skipWs cs with
    | [] => none
    | c :: rest =>
      if c = quoteChar then
        match jsonStringRest rest with
        | none => none
        | some r1 =>
          match skipWs r1 with
          | ':' :: r2 =>
            match jsonValue fuel r2 with
            | none => none
            | some r3 =>
              match skipWs r3 with
              | [] => none
              | c2 :: r4 =>
                if c2 = ',' then jsonMember fuel r4
                else if c2 = rbraceChar then some r4
                else none
          | _ => none
      else none

/-- Consume the body of a JSON array (the opening bracket has been
consumed). -/
def jsonArrayBody : Nat → List Char → Option (List Char)
  | 0, _ => none
  | fuel + 1, cs =>
    match skipWs cs with
    | [] => none
    | c :: rest =>
      if c = ']' then some rest else jsonElement fuel (c :: rest)

/-- Consume one array element and the array's remaining elements. -/
def jsonElement : Nat → List Char → Option (List Char)
  | 0, _ => none
  | fuel + 1, cs =>
    match jsonValue fuel cs with
    | none => none
    | some r1 =>
      match skipWs r1 with
      | [] => none
      | c :: r2 =>
        if c = ',' then jsonElement fuel r2
        else if c = ']' then some r2
        else none

end

/-- `jsonValid s = true` iff `JSON.parse(s)` succeeds: one JSON value,
possibly surrounded by whitespace, covering the whole text. -/
def jsonValid (s : String) : Bool :=
  match jsonValue (4 * s.data.length + 4) s.data with
  | some rest => (skipWs rest).isEmpty
  | none => false

/-! ## The `/plan` parse stage

`trip.js` lines 624–634: the raw model reply is first matched against
the greedy regex `/\x7b[\s\S]*\x7d/`; if a match exists, `JSON.parse`
is applied to the match (and only to the match); otherwise `JSON.parse`
is applied to the full reply.  A thrown parse error counts the attempt
as a parse failure (`continue`).

The greedy regex with leftmost-match semantics matches exactly the span
from the first brace-open of the text to the last brace-close of the
text, provided the latter comes after the former. -/

def extractGreedyL (cs : List Char) : Option (List Char) :=
  match cs.dropWhile (fun c => !(c = lbraceChar)) with
  | [] => none
  | c :: rest =>
    match (c :: rest).reverse.dropWhile (fun ch => !(ch = rbraceChar)) with
    | [] => none
    | d :: mid => some ((d :: mid).reverse)

/-- The span matched by `response.match(/\x7b[\s\S]*\x7d/)`, if any. -/
def extractGreedy (s : String) : Option String :=
  (extractGreedyL s.data).map fun l => ⟨l⟩

/-- Whether the parse stage of one `/plan` attempt succeeds on raw
model text `s` (lines 624–634 of `trip.js`). -/
def parseAttemptOk (s : String) : Bool :=
  match extractGreedy s with
  | some m => jsonValid m
  | none => jsonValid s

/-- Modelled from the spec: the spec (§6, §9) describes the extraction
as taking "the first balanced brace span using a depth counter".  This
definition follows those words; the source has no such scan.  It is
used only to compare the spec's description against `parseAttemptOk`. -/
def firstBalancedGo : List Char → Nat → List Char → Option (List Char)
  | [], _, _ => none
  | c :: rest, depth, acc =>
    if c = lbraceChar then firstBalancedGo rest (depth + 1) (c :: acc)
    else if c = rbraceChar then
      if depth = 1 then some (c :: acc).reverse
      else firstBalancedGo rest (depth - 1) (c :: acc)
    else firstBalancedGo rest depth (c :: acc)

/-- Modelled from the spec: the first balanced `\x7b...\x7d` block of
the text, found with a depth counter starting at the first brace-open. -/
def firstBalancedBlockSpec (s : String) : Option String :=
  match s.data.dropWhile (fun c => !(c = lbraceChar)) with
  | [] => none
  | c :: rest => (firstBalancedGo (c :: rest) 0 []).map fun l => ⟨l⟩

/-! ## Data model of the candidate itinerary

The shapes the `/plan` handler reads and writes.  A `Day` mirrors the
JSON object the LLM is instructed to produce (`day`, `cities`,
`distances`, `totalDistance`, `estimatedTime`); the handler additionally
writes a `durations` array during finalization, so the field is present
here (it is simply unread before finalization). -/

structure City where
  name : String
  /-- `[lat, lng]` as in the prompt's schema. -/
  coordinates : ℚ × ℚ
deriving DecidableEq

structure Day where
  day : ℚ
  cities : List City
  distances : List String
  totalDistance : String
  estimatedTime : String
  durations : List String
deriving DecidableEq

structure TripData where
  days : List Day
deriving DecidableEq

/-- One entry of `orsSegments`: the JS object
`(distance: ..., duration: ...)` where each field is either the
oracle-reported number or `null`. -/
structure Seg where
  distance : Option ℚ
  duration : Option ℚ
deriving DecidableEq

/-- One entry of `allORSData`: `(dayDistance, dayDuration, orsSegments)`. -/
structure DayORS where
  dayDistance : ℚ
  dayDuration : ℚ
  orsSegments : List Seg
deriving DecidableEq

/-- Outcome of one `axios.post` to the ORS directions endpoint, as
`validateORSRoutesAndDistances` distinguishes them:

* `throwErr` — the call threw (transport error or non-2xx status),
  landing in the `catch (err)` block;
* `missing` — the call returned, but
  `!response.data || !response.data.routes || !response.data.routes[0]
   || !response.data.routes[0].geometry` holds;
* `route d du` — a route with geometry was returned;
  `d`/`du` are `summary.distance`/`summary.duration`, `none` standing
  for a value with `typeof ≠ 'number'`. -/
inductive OracleReply where
  | throwErr
  | missing
  | route (distance : Option ℚ) (duration : Option ℚ)
deriving DecidableEq

/-- An oracle behaviour: profile, then the two coordinate pairs sent on
the wire (the request builder flips each waypoint's `[lat, lng]` to the
ORS order `[lon, lat]`). -/
def Oracle : Type := String → ℚ × ℚ → ℚ × ℚ → OracleReply

/-! ## The Itinerary Validator (`validateORSRoutesAndDistances`) -/

/-- `trip.js` line 387: the routing profile derived from the trip type. -/
def orsProfile (tripType : String) : String :=
  if tripType = "bike" then "cycling-regular" else "foot-walking"

/-- `trip.js` lines 390–392: per-day `(min, max)` distance limits in
meters. -/
def dayDistanceLimits (tripType : String) : ℚ × ℚ :=
  if tripType = "bike" then (10000, 60000) else (5000, 15000)

/-- The consecutive-waypoint pairs of a day:
`for (let i = 0; i < day.cities.length - 1; i++)` visits
`(cities[i], cities[i+1])`. -/
def consecutivePairs (cities : List City) : List (City × City) :=
  cities.zip cities.tail

/-- The request builder for one segment: the waypoints' `[lat, lng]`
coordinates are flipped to the ORS wire order `[lon, lat]` (lines
413–417), in exactly one place. -/
def wireReply (oracle : Oracle) (profile : String) (p : City × City) :
    OracleReply :=
  oracle profile (p.1.coordinates.2, p.1.coordinates.1)
    (p.2.coordinates.2, p.2.coordinates.1)

/-- The inner segment loop of `validateORSRoutesAndDistances` (lines
403–448), carrying the accumulators `dayDistance`, `dayDuration` and
`orsSegments`.  A thrown call or a response without route/geometry
aborts the whole validation (`return (valid: false)` ↦ `none`); a
route whose summary fields are not both numbers is pushed as a
`(distance: null, duration: null)` segment and not accumulated. -/
def runDay (oracle : Oracle) (profile : String) :
    List (City × City) → ℚ → ℚ → List Seg → Option (ℚ × ℚ × List Seg)
  | [], dayDistance, dayDuration, orsSegments =>
    some (dayDistance, dayDuration, orsSegments)
  | p :: rest, dayDistance, dayDuration, orsSegments =>
    match wireReply oracle profile p with
    | .throwErr => none
    | .missing => none
    | .route d du =>
      match d, du with
      | some dv, some duv =>
        runDay oracle profile rest (dayDistance + dv) (dayDuration + duv)
          (orsSegments ++ [⟨some dv, some duv⟩])
      | _, _ =>
        runDay oracle profile rest dayDistance dayDuration
          (orsSegments ++ [⟨none, none⟩])

/-- One iteration of the day loop: run the segments, then reject if the
accumulated `dayDistance` is outside the limits (lines 451–453). -/
def processDay (oracle : Oracle) (profile : String) (minD maxD : ℚ)
    (day : Day) : Option DayORS :=
  match runDay oracle profile (consecutivePairs day.cities) 0 0 [] with
  | none => none
  | some (dayDistance, dayDuration, orsSegments) =>
    if dayDistance < minD ∨ dayDistance > maxD then none
    else some ⟨dayDistance, dayDuration, orsSegments⟩

/-- The day loop (`for (const day of tripData.days)`), pushing each
day's measurements onto `allORSData`. -/
def daysLoop (oracle : Oracle) (profile : String) (minD maxD : ℚ) :
    List Day → Option (List DayORS)
  | [] => some []
  | day :: rest =>
    match processDay oracle profile minD maxD day with
    | none => none
    | some r =>
      match daysLoop oracle profile minD maxD rest with
      | none => none
      | some tail => some (r :: tail)

/-- `validateORSRoutesAndDistances(tripData, tripType)`: `none` models
`(valid: false)`, `some allORSData` models
`(valid: true, allORSData)`. -/
def validateORSRoutesAndDistances (oracle : Oracle) (tripData : TripData)
    (tripType : String) : Option (List DayORS) :=
  daysLoop oracle (orsProfile tripType) (dayDistanceLimits tripType).1
    (dayDistanceLimits tripType).2 tripData.days

/-! ## Finalization (lines 663–678)

On acceptance the handler overwrites each day's `totalDistance`,
`estimatedTime`, `distances` and (newly) `durations` with strings
derived from the oracle measurements.  `toFixed` is modelled as
rounding half-up on `ℚ` (ORS values are non-negative).  The JS guards
`typeof orsData[idx].dayDistance === 'number'` are always true in this
model because `dayDistance`/`dayDuration` are `ℚ` by construction; the
per-segment guards are genuine and map `null` segments to `"N/A"`. -/

/-- `x.toFixed(digits)` for a non-negative rational. -/
def toFixedStr (digits : Nat) (q : ℚ) : String :=
  let n : ℤ := round (q * ((10 : ℚ) ^ digits))
  let sign := if n < 0 then "-" else ""
  let a := n.natAbs
  let ip := a / 10 ^ digits
  let fp := a % 10 ^ digits
  let fpS := toString fp
  let pad := String.mk (List.replicate (digits - fpS.length) '0')
  sign ++ toString ip ++ "." ++ pad ++ fpS

/-- `(meters / 1000).toFixed(2) + ' km'`. -/
def fmtKm (q : ℚ) : String := toFixedStr 2 (q / 1000) ++ " km"

/-- `(seconds / 3600).toFixed(2) + ' hours'`. -/
def fmtHours (q : ℚ) : String := toFixedStr 2 (q / 3600) ++ " hours"

/-- `(seconds / 60).toFixed(1) + ' min'`. -/
def fmtMin (q : ℚ) : String := toFixedStr 1 (q / 60) ++ " min"

/-- The per-day body of the finalization `forEach`. -/
def finalizeDay (day : Day) (o : DayORS) : Day :=
  { day with
    totalDistance := fmtKm o.dayDistance
    estimatedTime := fmtHours o.dayDuration
    distances := o.orsSegments.map fun seg =>
      match seg.distance with
      | some d => fmtKm d
      | none => "N/A"
    durations := o.orsSegments.map fun seg =>
      match seg.duration with
      | some du => fmtMin du
      | none => "N/A" }

/-- `tripData.days.forEach((day, idx) => ...)` pairing each day with
`orsData[idx]`.  The validator returns exactly one entry per day, so
the branch where `orsData` runs out is unreachable in the program flow
(in JS it would throw on `orsData[idx].dayDistance`); it leaves the day
untouched here. -/
def finalizeDays : List Day → List DayORS → List Day
  | [], _ => []
  | day :: rest, [] => day :: finalizeDays rest []
  | day :: rest, o :: os => finalizeDay day o :: finalizeDays rest os

def finalizeTripData (td : TripData) (ors : List DayORS) : TripData :=
  ⟨finalizeDays td.days ors⟩

/-! ## The generation–validation loop (lines 596–653)

The Groq call of attempt `i` is modelled by `llm i`; parsing the raw
reply into a `TripData` is a parameter `parseFn` (in the source it is
`JSON.parse` applied to the greedy-regex extraction, cf.
`parseAttemptOk`); `validateFn` is the validator.  `llmCalls` and
`validatorCalls` count the calls made, so that "the validator was never
called" is expressible. -/

structure LoopResult where
  foundValid : Bool
  tripData : Option TripData
  orsData : Option (List DayORS)
  lastRaw : Option String
  llmCalls : Nat
  validatorCalls : Nat
deriving DecidableEq

/-- The body of `for (let attempt = 0; attempt < maxRetries; attempt++)`:
each iteration calls the model, records `lastRawResponse`, tries to
parse (`continue` on failure), validates, and breaks on success. -/
def loopGo (llm : Nat → String) (parseFn : String → Option TripData)
    (validateFn : TripData → Option (List DayORS)) :
    Nat → Nat → Option String → Nat → Nat → LoopResult
  | 0, _, lastRaw, llmCalls, validatorCalls =>
    ⟨false, none, none, lastRaw, llmCalls, validatorCalls⟩
  | remaining + 1, attempt, _, llmCalls, validatorCalls =>
    let response := llm attempt
    match parseFn response with
    | none =>
      loopGo llm parseFn validateFn remaining (attempt + 1) (some response)
        (llmCalls + 1) validatorCalls
    | some tripData =>
      match validateFn tripData with
      | some orsData =>
        ⟨true, some tripData, some orsData, some response, llmCalls + 1,
          validatorCalls + 1⟩
      | none =>
        loopGo llm parseFn validateFn remaining (attempt + 1) (some response)
          (llmCalls + 1) (validatorCalls + 1)

def maxRetries : Nat := 5

def runPlanLoop (llm : Nat → String) (parseFn : String → Option TripData)
    (validateFn : TripData → Option (List DayORS)) : LoopResult :=
  loopGo llm parseFn validateFn maxRetries 0 none 0 0

/-- The `/plan` handler's outcome: the 500 response carrying
`rawResponse: lastRawResponse`, or the 200 response carrying the
finalized `tripData`. -/
inductive PlanResponse where
  | success (tripData : TripData)
  | failed (rawResponse : Option String)
deriving DecidableEq

/-- The `/plan` handler after the prompt is built: run the loop, fail
with the last raw response when no attempt validated, otherwise
finalize the accepted candidate with the oracle measurements. -/
def planTrip (llm : Nat → String) (parseFn : String → Option TripData)
    (validateFn : TripData → Option (List DayORS)) : PlanResponse :=
  let L := runPlanLoop llm parseFn validateFn
  if L.foundValid then
    match L.tripData, L.orsData with
    | some td, some ors => .success (finalizeTripData td ors)
    | _, _ => .failed L.lastRaw
  else .failed L.lastRaw

/-- The loop with the validator instantiated to
`validateORSRoutesAndDistances` against a given oracle and trip type,
as in the source. -/
def planTripWithOracle (llm : Nat → String)
    (parseFn : String → Option TripData) (oracle : Oracle)
    (tripType : String) : PlanResponse :=
  planTrip llm parseFn
    (fun td => validateORSRoutesAndDistances oracle td tripType)

/-! ## The client-side geocoding gate (`TripPlan.js`)

A Nominatim response is modelled as `Option (List GeoPlace)`: `none`
when the `axios.get` threw (caught and turned into `(isValid: false)`),
otherwise the ranked result list.  Optional `address` components are
`Option String`; JS string truthiness (`undefined`, missing and `""`
are falsy) is `jsTruthy`. -/

structure GeoPlace where
  displayName : String
  /-- `address?.country_code` (lower-case in Nominatim). -/
  addrCountryCode : Option String
  /-- `address?.country`. -/
  addrCountry : Option String
  lat : ℚ
  lon : ℚ
deriving DecidableEq

/-- `.toUpperCase()` on an ASCII string, character by character. -/
def toUpperStr (s : String) : String := ⟨s.data.map Char.toUpper⟩

/-- `.toLowerCase()` on an ASCII string, character by character. -/
def toLowerStr (s : String) : String := ⟨s.data.map Char.toLower⟩

def jsTruthy : Option String → Bool
  | none => false
  | some s => decide (¬ s = "")

structure CountryValidation where
  isValid : Bool
  displayName : Option String
  countryCode : Option String
deriving DecidableEq

structure CityValidation where
  isValid : Bool
  coordinates : Option (ℚ × ℚ)
  displayName : Option String
deriving DecidableEq

/-- `validateCountry(countryName)` as a function of the geocoder
response for that name (`TripPlan.js` lines 97–135): any non-empty
result list is accepted; the country code is taken from the top hit's
address when both `country_code` and `country` are truthy, else the
fallback `'IL'` is used.  Note that the helper `normalize` (below) is
never consulted. -/
def validateCountry (resp : Option (List GeoPlace)) : CountryValidation :=
  match resp with
  | none => ⟨false, none, none⟩
  | some [] => ⟨false, none, none⟩
  | some (location :: _) =>
    let code := location.addrCountryCode.map toUpperStr
    let name := location.addrCountry
    if jsTruthy code && jsTruthy name then
      ⟨true, some location.displayName, code⟩
    else
      ⟨true, some location.displayName, some "IL"⟩

/-- `validateCity(cityName, countryCode)` (lines 139–167): returns
`(isValid: false)` at once when `countryCode` is undefined or empty,
otherwise consults the geocoder constrained to that code and accepts
only a top hit whose upper-cased `address.country_code` equals the
constraint.  `cityGeo name code` is the geocoder response for the
constrained query. -/
def validateCity (cityGeo : String → String → Option (List GeoPlace))
    (cityName : String) (countryCode : Option String) : CityValidation :=
  match countryCode with
  | none => ⟨false, none, none⟩
  | some cc =>
    if cc = "" then ⟨false, none, none⟩
    else
      match cityGeo cityName cc with
      | none => ⟨false, none, none⟩
      | some [] => ⟨false, none, none⟩
      | some (location :: _) =>
        match location.addrCountryCode with
        | none => ⟨false, none, none⟩
        | some acc =>
          if acc = "" then ⟨false, none, none⟩
          else if toUpperStr acc = cc then
            ⟨true, some (location.lat, location.lon),
              some location.displayName⟩
          else ⟨false, none, none⟩

/-- The helper `normalize` defined next to `validateCountry` in the
source: `toLowerCase`, Unicode NFD, strip diacritic marks, strip
non-`[a-z]`.  Modelled for ASCII input, on which the NFD/diacritic
steps are the identity and the final filter does the rest. -/
def normalize (s : String) : String :=
  ⟨(toLowerStr s).data.filter fun c => 'a' ≤ c && c ≤ 'z'⟩

/-- What the geocoding gate observably did during one `handleSubmit`:
the country codes that `validateCity` was invoked with, and whether the
`/api/trip/plan` request was issued. -/
structure SubmitOutcome where
  cityCallCodes : List (Option String)
  planCalled : Bool
deriving DecidableEq

/-- The validation prefix of `handleSubmit` (lines 225–248): validate
the country; on failure set an error and return.  Then validate the
city with the returned country code; on failure set an error and
return.  Only then POST to `/api/trip/plan`. -/
def handleSubmit (countryGeo : Option (List GeoPlace))
    (cityGeo : String → String → Option (List GeoPlace))
    (cityName : String) : SubmitOutcome :=
  let countryValidation := validateCountry countryGeo
  if countryValidation.isValid then
    let cityValidation :=
      validateCity cityGeo cityName countryValidation.countryCode
    if cityValidation.isValid then
      ⟨[countryValidation.countryCode], true⟩
    else
      ⟨[countryValidation.countryCode], false⟩
  else
    ⟨[], false⟩

/-! ## Derived measures used by the theorems -/

/-- The sum of the numeric (`non-null`) distances recorded in a
segment list. -/
def segDistSum (segs : List Seg) : ℚ :=
  (segs.filterMap Seg.distance).sum

/-- The distance contribution of one oracle reply to a day's
accumulated distance: `summary.distance` when both summary fields are
numbers, `0` otherwise. -/
def routeContribution : OracleReply → ℚ
  | .route (some d) (some _) => d
  | _ => 0

/-- Whether an oracle reply carried a route with geometry (possibly
with non-numeric summary fields). -/
def isRouteReply : OracleReply → Bool
  | .route _ _ => true
  | _ => false

/-- The day distance the validator would accumulate for `cities` under
a given oracle: the sum of the numeric segment distances. -/
def numericDaySum (oracle : Oracle) (profile : String)
    (cities : List City) : ℚ :=
  ((consecutivePairs cities).map fun p =>
    routeContribution (wireReply oracle profile p)).sum

/-! ## Concrete fixtures for witnesses and counterexamples -/

/-- A two-segment day: the second segment's oracle reply has a route
(geometry present) whose summary fields are not numbers. -/
def cityA : City := ⟨"A", (1, 1)⟩

def cityB : City := ⟨"B", (2, 2)⟩

def cityC : City := ⟨"C", (3, 3)⟩

def demoDay (cities : List City) : Day :=
  ⟨1, cities, [], "", "", []⟩

/-- A one-day candidate whose day visits A → B → C. -/
def tripABC : TripData := ⟨[demoDay [cityA, cityB, cityC]]⟩

/-- A one-day candidate whose day visits A → B. -/
def tripAB : TripData := ⟨[demoDay [cityA, cityB]]⟩

/-- A one-day candidate whose single day has a single waypoint. -/
def tripSolo : TripData := ⟨[demoDay [cityA]]⟩

/-- Oracle answering the A→B segment with a measured route of 12 km /
3600 s and every other segment with a route whose summary fields are
not numbers. -/
def nullSegOracle : Oracle := fun _ s _ =>
  if s = (1, 1) then .route (some 12000) (some 3600) else .route none none

/-- Oracle measuring every segment at 12 km / 3600 s. -/
def okOracle : Oracle := fun _ _ _ => .route (some 12000) (some 3600)

/-- Oracle whose every call throws (transport error / non-2xx). -/
def downOracle : Oracle := fun _ _ _ => .throwErr

/-- The measurements the validator produces for `tripABC` under
`nullSegOracle`. -/
def nullSegResult : DayORS :=
  ⟨12000, 3600, [⟨some 12000, some 3600⟩, ⟨none, none⟩]⟩

/-- A model reply that is not JSON and contains no brace block. -/
def junkReply : String := "x"

/-- The C3 counterexample text: two balanced brace blocks separated by
prose — `JSON.parse` fails on the whole text, the first balanced block
parses, but the greedy regex spans both blocks and fails to parse. -/
def twoBlockText : String := "\x7b\x7d x \x7b\x7d"

/-- The first balanced block of `twoBlockText`. -/
def emptyObjText : String := "\x7b\x7d"

/-- A geocoder response whose top hit is Germany. -/
def germanyResp : Option (List GeoPlace) :=
  some [⟨"Germany", some "de", some "Germany", 51, 9⟩]

/-- A geocoder behaviour for city lookups; its answers are irrelevant
to the gate-ordering facts proved about it. -/
def noCityGeo : String → String → Option (List GeoPlace) := fun _ _ => none

/-- A city-lookup behaviour whose top hit is in the queried country. -/
def berlinGeo : String → String → Option (List GeoPlace) := fun _ _ =>
  some [⟨"Berlin", some "de", some "Germany", 52, 13⟩]

end TripPlanner

namespace TripPlanner

lemma runDay_spec (oracle : Oracle) (profile : String) :
    ∀ (pairs : List (City × City)) (dd du : ℚ) (segs : List Seg)
      (dd' du' : ℚ) (segs' : List Seg),
      runDay oracle profile pairs dd du segs = some (dd', du', segs') →
      ∃ t, segs' = segs ++ t ∧ dd' = dd + segDistSum t := by
  intro pairs
  induction pairs with
  | nil =>
    intro dd du segs dd' du' segs' h
    simp only [runDay, Option.some.injEq, Prod.mk.injEq] at h
    obtain ⟨h1, _h2, h3⟩ := h
    exact ⟨[], by simp [← h3, segDistSum, ← h1]⟩
  | cons p rest ih =>
    intro dd du segs dd' du' segs' h
    rw [runDay] at h
    cases hrep : wireReply oracle profile p with
    | throwErr => rw [hrep] at h; simp at h
    | missing => rw [hrep] at h; simp at h
    | route d du2 =>
      rw [hrep] at h
      cases d with
      | some dv =>
        cases du2 with
        | some duv =>
          simp only at h
          obtain ⟨t, ht, hd⟩ := ih _ _ _ _ _ _ h
          refine ⟨⟨some dv, some duv⟩ :: t, ?_, ?_⟩
          · simpa using ht
          · rw [hd]
            simp only [segDistSum, List.filterMap_cons]
            show dd + dv + (t.filterMap Seg.distance).sum
              = dd + (dv + (t.filterMap Seg.distance).sum)
            ring
        | none =>
          simp only at h
          obtain ⟨t, ht, hd⟩ := ih _ _ _ _ _ _ h
          refine ⟨⟨none, none⟩ :: t, by simpa using ht, ?_⟩
          rw [hd]
          simp [segDistSum, List.filterMap_cons]
      | none =>
        simp only at h
        obtain ⟨t, ht, hd⟩ := ih _ _ _ _ _ _ h
        refine ⟨⟨none, none⟩ :: t, by simpa using ht, ?_⟩
        rw [hd]
        simp [segDistSum, List.filterMap_cons]

end TripPlanner

namespace TripPlanner

lemma processDay_spec (oracle : Oracle) (profile : String) (minD maxD : ℚ)
    (day : Day) (r : DayORS)
    (h : processDay oracle profile minD maxD day = some r) :
    minD ≤ r.dayDistance ∧ r.dayDistance ≤ maxD ∧
      r.dayDistance = segDistSum r.orsSegments := by
  rw [processDay] at h
  cases hrun : runDay oracle profile (consecutivePairs day.cities) 0 0 [] with
  | none => rw [hrun] at h; simp at h
  | some v =>
    obtain ⟨dd, ddu, segs⟩ := v
    rw [hrun] at h
    simp only at h
    by_cases hlim : dd < minD ∨ dd > maxD
    · rw [if_pos hlim] at h; simp at h
    · rw [if_neg hlim] at h
      push_neg at hlim
      obtain ⟨t, ht, hd⟩ := runDay_spec oracle profile _ _ _ _ _ _ _ hrun
      simp only [Option.some.injEq] at h
      subst h
      refine ⟨hlim.1, hlim.2, ?_⟩
      simp only [List.nil_append] at ht
      rw [hd, ht]
      simp

lemma daysLoop_spec (oracle : Oracle) (profile : String) (minD maxD : ℚ) :
    ∀ (days : List Day) (res : List DayORS),
      daysLoop oracle profile minD maxD days = some res →
      res.length = days.length ∧
        ∀ r ∈ res, ∃ day ∈ days, processDay oracle profile minD maxD day = some r := by
  intro days
  induction days with
  | nil =>
    intro res h
    simp only [daysLoop, Option.some.injEq] at h
    subst h
    simp
  | cons day rest ih =>
    intro res h
    rw [daysLoop] at h
    cases hpd : processDay oracle profile minD maxD day with
    | none => rw [hpd] at h; simp at h
    | some r0 =>
      rw [hpd] at h
      cases htl : daysLoop oracle profile minD maxD rest with
      | none => rw [htl] at h; simp at h
      | some tail =>
        rw [htl] at h
        simp only [Option.some.injEq] at h
        subst h
        obtain ⟨hlen, hmem⟩ := ih tail htl
        refine ⟨by simp [hlen], ?_⟩
        intro r hr
        rcases List.mem_cons.mp hr with hEq | hIn
        · exact ⟨day, by simp, by rw [← hEq] at hpd; exact hpd⟩
        · obtain ⟨d, hd, hpd'⟩ := hmem r hIn
          exact ⟨d, by simp [hd], hpd'⟩

lemma daysLoop_none_of_mem (oracle : Oracle) (profile : String)
    (minD maxD : ℚ) :
    ∀ (days : List Day) (day : Day), day ∈ days →
      processDay oracle profile minD maxD day = none →
      daysLoop oracle profile minD maxD days = none := by
  intro days
  induction days with
  | nil => intro day h; simp at h
  | cons d rest ih =>
    intro day hmem hnone
    rcases List.mem_cons.mp hmem with hEq | hIn
    · rw [daysLoop, ← hEq, hnone]
    · rw [daysLoop]
      cases hpd : processDay oracle profile minD maxD d with
      | none => rfl
      | some r0 => rw [ih day hIn hnone]

lemma runDay_none_of_bad (oracle : Oracle) (profile : String) :
    ∀ (pairs : List (City × City)) (p : City × City), p ∈ pairs →
      (wireReply oracle profile p = .throwErr ∨
        wireReply oracle profile p = .missing) →
      ∀ (dd du : ℚ) (segs : List Seg),
        runDay oracle profile pairs dd du segs = none := by
  intro pairs
  induction pairs with
  | nil => intro p h; simp at h
  | cons q rest ih =>
    intro p hmem hbad dd du segs
    rcases List.mem_cons.mp hmem with hEq | hIn
    · subst hEq
      rcases hbad with hb | hb <;> rw [runDay, hb]
    · rw [runDay]
      cases hrep : wireReply oracle profile q with
      | throwErr => rfl
      | missing => rfl
      | route d du2 =>
        cases d with
        | some dv =>
          cases du2 with
          | some duv => exact ih p hIn hbad _ _ _
          | none => exact ih p hIn hbad _ _ _
        | none => exact ih p hIn hbad _ _ _

end TripPlanner

namespace TripPlanner

lemma runDay_routes (oracle : Oracle) (profile : String) :
    ∀ (pairs : List (City × City)) (dd du : ℚ) (segs : List Seg),
      (∀ p ∈ pairs, isRouteReply (wireReply oracle profile p) = true) →
      ∃ du' segs', runDay oracle profile pairs dd du segs =
        some (dd + (pairs.map fun p =>
          routeContribution (wireReply oracle profile p)).sum, du', segs') := by
  intro pairs
  induction pairs with
  | nil =>
    intro dd du segs _
    exact ⟨du, segs, by simp [runDay]⟩
  | cons q rest ih =>
    intro dd du segs hall
    have hq := hall q (by simp)
    cases hrep : wireReply oracle profile q with
    | throwErr => rw [hrep] at hq; simp [isRouteReply] at hq
    | missing => rw [hrep] at hq; simp [isRouteReply] at hq
    | route d du2 =>
      have hrest : ∀ p ∈ rest, isRouteReply (wireReply oracle profile p) = true :=
        fun p hp => hall p (by simp [hp])
      cases d with
      | some dv =>
        cases du2 with
        | some duv =>
          obtain ⟨du', segs', hrun⟩ :=
            ih (dd + dv) (du + duv) (segs ++ [⟨some dv, some duv⟩]) hrest
          refine ⟨du', segs', ?_⟩
          rw [runDay, hrep]
          simp only
          rw [hrun]
          congr 2
          rw [List.map_cons, List.sum_cons, hrep]
          simp only [routeContribution]
          ring
        | none =>
          obtain ⟨du', segs', hrun⟩ :=
            ih dd du (segs ++ [⟨none, none⟩]) hrest
          refine ⟨du', segs', ?_⟩
          rw [runDay, hrep]
          simp only
          rw [hrun]
          congr 2
          rw [List.map_cons, List.sum_cons, hrep]
          simp [routeContribution]
      | none =>
        obtain ⟨du', segs', hrun⟩ :=
          ih dd du (segs ++ [⟨none, none⟩]) hrest
        refine ⟨du', segs', ?_⟩
        rw [runDay, hrep]
        simp only
        rw [hrun]
        congr 2
        rw [List.map_cons, List.sum_cons, hrep]
        simp [routeContribution]

lemma processDay_routes (oracle : Oracle) (profile : String)
    (minD maxD : ℚ) (day : Day)
    (hall : ∀ p ∈ consecutivePairs day.cities,
      isRouteReply (wireReply oracle profile p) = true)
    (hlo : minD ≤ numericDaySum oracle profile day.cities)
    (hhi : numericDaySum oracle profile day.cities ≤ maxD) :
    ∃ r, processDay oracle profile minD maxD day = some r := by
  obtain ⟨du', segs', hrun⟩ := runDay_routes oracle profile
    (consecutivePairs day.cities) 0 0 [] hall
  rw [processDay, hrun]
  simp only
  rw [if_neg]
  · exact ⟨_, rfl⟩
  · push_neg
    constructor
    · simpa [numericDaySum] using hlo
    · simpa [numericDaySum] using hhi

lemma daysLoop_isSome (oracle : Oracle) (profile : String) (minD maxD : ℚ) :
    ∀ (days : List Day),
      (∀ day ∈ days, ∃ r, processDay oracle profile minD maxD day = some r) →
      ∃ res, daysLoop oracle profile minD maxD days = some res := by
  intro days
  induction days with
  | nil => intro _; exact ⟨[], rfl⟩
  | cons day rest ih =>
    intro hall
    obtain ⟨r0, hr0⟩ := hall day (by simp)
    obtain ⟨tail, htl⟩ := ih fun d hd => hall d (by simp [hd])
    exact ⟨r0 :: tail, by rw [daysLoop, hr0, htl]⟩

end TripPlanner

namespace TripPlanner

lemma loopGo_step_parse_fail (llm : Nat → String)
    (parseFn : String → Option TripData)
    (validateFn : TripData → Option (List DayORS))
    (r i : Nat) (lr : Option String) (lc vc : Nat)
    (hp : parseFn (llm i) = none) :
    loopGo llm parseFn validateFn (r + 1) i lr lc vc =
      loopGo llm parseFn validateFn r (i + 1) (some (llm i)) (lc + 1) vc := by
  rw [loopGo]
  simp only [hp]

lemma loopGo_step_validate_fail (llm : Nat → String)
    (parseFn : String → Option TripData)
    (validateFn : TripData → Option (List DayORS))
    (r i : Nat) (lr : Option String) (lc vc : Nat) (td : TripData)
    (hp : parseFn (llm i) = some td) (hv : validateFn td = none) :
    loopGo llm parseFn validateFn (r + 1) i lr lc vc =
      loopGo llm parseFn validateFn r (i + 1) (some (llm i)) (lc + 1)
        (vc + 1) := by
  rw [loopGo]
  simp only [hp, hv]

lemma loopGo_all_fail (llm : Nat → String)
    (parseFn : String → Option TripData)
    (validateFn : TripData → Option (List DayORS)) :
    ∀ (n i : Nat) (lr : Option String) (lc vc : Nat),
      (∀ j, j < n + 1 → parseFn (llm (i + j)) = none ∨
        ∃ td, parseFn (llm (i + j)) = some td ∧ validateFn td = none) →
      (loopGo llm parseFn validateFn (n + 1) i lr lc vc).foundValid = false ∧
      (loopGo llm parseFn validateFn (n + 1) i lr lc vc).lastRaw =
        some (llm (i + n)) ∧
      (loopGo llm parseFn validateFn (n + 1) i lr lc vc).llmCalls =
        lc + (n + 1) := by
  intro n
  induction n with
  | zero =>
    intro i lr lc vc h
    rcases h 0 (by norm_num) with hp | ⟨td, hp, hv⟩
    · rw [loopGo_step_parse_fail llm parseFn validateFn 0 i lr lc vc
        (by simpa using hp)]
      simp [loopGo]
    · rw [loopGo_step_validate_fail llm parseFn validateFn 0 i lr lc vc td
        (by simpa using hp) hv]
      simp [loopGo]
  | succ n ih =>
    intro i lr lc vc h
    have hshift : ∀ j, j < n + 1 → parseFn (llm (i + 1 + j)) = none ∨
        ∃ td, parseFn (llm (i + 1 + j)) = some td ∧ validateFn td = none := by
      intro j hj
      have := h (j + 1) (by omega)
      rwa [show i + (j + 1) = i + 1 + j by omega] at this
    rcases h 0 (by norm_num) with hp | ⟨td, hp, hv⟩
    · rw [loopGo_step_parse_fail llm parseFn validateFn (n + 1) i lr lc vc
        (by simpa using hp)]
      have := ih (i + 1) (some (llm i)) (lc + 1) vc hshift
      refine ⟨this.1, ?_, ?_⟩
      · rw [this.2.1]
        congr 2
        omega
      · rw [this.2.2]
        omega
    · rw [loopGo_step_validate_fail llm parseFn validateFn (n + 1) i lr lc vc td
        (by simpa using hp) hv]
      have := ih (i + 1) (some (llm i)) (lc + 1) (vc + 1) hshift
      refine ⟨this.1, ?_, ?_⟩
      · rw [this.2.1]
        congr 2
        omega
      · rw [this.2.2]
        omega

lemma loopGo_all_parse_fail (llm : Nat → String)
    (parseFn : String → Option TripData)
    (validateFn : TripData → Option (List DayORS)) :
    ∀ (n i : Nat) (lr : Option String) (lc vc : Nat),
      (∀ j, j < n + 1 → parseFn (llm (i + j)) = none) →
      (loopGo llm parseFn validateFn (n + 1) i lr lc vc).foundValid = false ∧
      (loopGo llm parseFn validateFn (n + 1) i lr lc vc).lastRaw =
        some (llm (i + n)) ∧
      (loopGo llm parseFn validateFn (n + 1) i lr lc vc).llmCalls =
        lc + (n + 1) ∧
      (loopGo llm parseFn validateFn (n + 1) i lr lc vc).validatorCalls = vc := by
  intro n
  induction n with
  | zero =>
    intro i lr lc vc h
    rw [loopGo_step_parse_fail llm parseFn validateFn 0 i lr lc vc
      (by simpa using h 0 (by norm_num))]
    simp [loopGo]
  | succ n ih =>
    intro i lr lc vc h
    rw [loopGo_step_parse_fail llm parseFn validateFn (n + 1) i lr lc vc
      (by simpa using h 0 (by norm_num))]
    have hshift : ∀ j, j < n + 1 → parseFn (llm (i + 1 + j)) = none := by
      intro j hj
      have := h (j + 1) (by omega)
      rwa [show i + (j + 1) = i + 1 + j by omega] at this
    have := ih (i + 1) (some (llm i)) (lc + 1) vc hshift
    refine ⟨this.1, ?_, ?_, this.2.2.2⟩
    · rw [this.2.1]
      congr 2
      omega
    · rw [this.2.2.1]
      omega

lemma planTrip_of_not_found (llm : Nat → String)
    (parseFn : String → Option TripData)
    (validateFn : TripData → Option (List DayORS))
    (h : (runPlanLoop llm parseFn validateFn).foundValid = false) :
    planTrip llm parseFn validateFn =
      .failed (runPlanLoop llm parseFn validateFn).lastRaw := by
  rw [planTrip]
  simp only [h]
  rfl

end TripPlanner

namespace TripPlanner

lemma finalizeDay_cities (day : Day) (o : DayORS) :
    (finalizeDay day o).cities = day.cities := rfl

lemma finalizeDays_map_cities :
    ∀ (ds : List Day) (os : List DayORS),
      (finalizeDays ds os).map Day.cities = ds.map Day.cities := by
  intro ds
  induction ds with
  | nil => intro os; cases os <;> rfl
  | cons d rest ih =>
    intro os
    cases os with
    | nil => simp [finalizeDays, ih]
    | cons o os' => simp [finalizeDays, ih, finalizeDay_cities]

lemma finalizeDays_map_day :
    ∀ (ds : List Day) (os : List DayORS),
      (finalizeDays ds os).map Day.day = ds.map Day.day := by
  intro ds
  induction ds with
  | nil => intro os; cases os <;> rfl
  | cons d rest ih =>
    intro os
    cases os with
    | nil => simp [finalizeDays, ih]
    | cons o os' =>
      simp only [finalizeDays, List.map_cons, ih]
      rfl

lemma finalizeDays_get :
    ∀ (ds : List Day) (os : List DayORS) (i : Nat) (day : Day) (o : DayORS),
      ds.get? i = some day → os.get? i = some o →
      (finalizeDays ds os).get? i = some (finalizeDay day o) := by
  intro ds
  induction ds with
  | nil => intro os i day o h; simp at h
  | cons d rest ih =>
    intro os i day o hd ho
    cases os with
    | nil => simp at ho
    | cons o0 os' =>
      cases i with
      | zero =>
        simp only [List.get?] at hd ho
        obtain rfl : d = day := by simpa using hd
        obtain rfl : o0 = o := by simpa using ho
        rfl
      | succ i' =>
        simp only [List.get?] at hd ho
        exact ih os' i' day o hd ho

lemma validateCountry_isValid_code (resp : Option (List GeoPlace))
    (h : (validateCountry resp).isValid = true) :
    ∃ c, (validateCountry resp).countryCode = some c ∧ ¬ c = "" := by
  cases resp with
  | none => simp [validateCountry] at h
  | some data =>
    cases data with
    | nil => simp [validateCountry] at h
    | cons location rest =>
      simp only [validateCountry]
      by_cases hc : (jsTruthy (location.addrCountryCode.map toUpperStr)
          && jsTruthy location.addrCountry) = true
      · rw [if_pos hc]
        cases hcc : location.addrCountryCode with
        | none => rw [hcc] at hc; simp [jsTruthy] at hc
        | some s =>
          rw [hcc] at hc
          have hts : jsTruthy (some (toUpperStr s)) = true := by
            have := (Bool.and_eq_true _ _).mp hc
            simpa using this.1
          refine ⟨toUpperStr s, by simp, ?_⟩
          simpa [jsTruthy] using hts
      · rw [if_neg hc]
        exact ⟨"IL", rfl, by simp⟩

end TripPlanner

namespace TripPlanner

lemma dropWhile_cons_sat {α} (p : α → Bool) :
    ∀ (l : List α) (c : α) (t : List α), l.dropWhile p = c :: t →
      p c = false := by
  intro l
  induction l with
  | nil => intro c t h; simp at h
  | cons x xs ih =>
    intro c t h
    by_cases hx : p x = true
    · rw [List.dropWhile_cons_of_pos hx] at h
      exact ih c t h
    · rw [List.dropWhile_cons_of_neg hx] at h
      obtain ⟨rfl, -⟩ := List.cons.inj h
      simpa using hx

end TripPlanner

namespace TripPlanner

lemma extractGreedyL_spec (cs l : List Char)
    (h : extractGreedyL cs = some l) :
    ∃ a b : List Char, cs = a ++ l ++ b ∧
      (∀ x ∈ a, ¬ x = lbraceChar) ∧ (∀ x ∈ b, ¬ x = rbraceChar) ∧
      l.head? = some lbraceChar ∧ l.getLast? = some rbraceChar := by
  rw [extractGreedyL] at h
  cases hu : cs.dropWhile (fun c => !(c = lbraceChar)) with
  | nil => rw [hu] at h; simp at h
  | cons c rest =>
    rw [hu] at h
    dsimp only at h
    cases hv : (c :: rest).reverse.dropWhile (fun ch => !(ch = rbraceChar)) with
    | nil => rw [hv] at h; simp at h
    | cons d mid =>
      rw [hv] at h
      simp only [Option.some.injEq] at h
      subst h
      have hcl : c = lbraceChar := by
        have := dropWhile_cons_sat _ cs c rest hu
        simpa using this
      have hdr : d = rbraceChar := by
        have := dropWhile_cons_sat _ ((c :: rest).reverse) d mid hv
        simpa using this
      refine ⟨cs.takeWhile (fun c => !(c = lbraceChar)),
        ((c :: rest).reverse.takeWhile (fun ch => !(ch = rbraceChar))).reverse,
        ?_, ?_, ?_, ?_, ?_⟩
      · have h1 : cs = cs.takeWhile (fun c => !(c = lbraceChar)) ++ (c :: rest) := by
          conv_lhs => rw [← List.takeWhile_append_dropWhile
            (p := fun c => !(c = lbraceChar)) (l := cs)]
          rw [hu]
        have h2 : (c :: rest).reverse =
            (c :: rest).reverse.takeWhile (fun ch => !(ch = rbraceChar))
              ++ (d :: mid) := by
          conv_lhs => rw [← List.takeWhile_append_dropWhile
            (p := fun ch => !(ch = rbraceChar)) (l := (c :: rest).reverse)]
          rw [hv]
        have h3 : c :: rest = (d :: mid).reverse ++
            ((c :: rest).reverse.takeWhile (fun ch => !(ch = rbraceChar))).reverse := by
          have h4 := congrArg List.reverse h2
          rwa [List.reverse_reverse, List.reverse_append] at h4
        conv_lhs => rw [h1, h3]
        rw [List.append_assoc]
      · intro x hx
        have := List.mem_takeWhile_imp hx
        simpa using this
      · intro x hx
        rw [List.mem_reverse] at hx
        have := List.mem_takeWhile_imp hx
        simpa using this
      · have h2 : (c :: rest).reverse =
            (c :: rest).reverse.takeWhile (fun ch => !(ch = rbraceChar))
              ++ (d :: mid) := by
          conv_lhs => rw [← List.takeWhile_append_dropWhile
            (p := fun ch => !(ch = rbraceChar)) (l := (c :: rest).reverse)]
          rw [hv]
        have h3 : c :: rest = (d :: mid).reverse ++
            ((c :: rest).reverse.takeWhile (fun ch => !(ch = rbraceChar))).reverse := by
          have h4 := congrArg List.reverse h2
          rwa [List.reverse_reverse, List.reverse_append] at h4
        have hne : (d :: mid).reverse ≠ [] := by simp
        have := congrArg List.head? h3
        rw [List.head?_append_of_ne_nil _ hne] at this
        simp only [List.head?_cons] at this
        rw [← this, hcl]
      · rw [List.reverse_cons, List.getLast?_concat, hdr]
end TripPlanner

namespace TripPlanner

/-- C1: for every candidate itinerary accepted by
`validateORSRoutesAndDistances` (result `some res`, i.e. `valid: true`),
the validator produced one measurement per day, and every day's
accumulated `dayDistance` — the sum of the numeric oracle-measured
segment distances of that day — lies within the trip-type envelope:
`[10000, 60000]` meters per day independently for `tripType = "bike"`,
and `[5000, 15000]` meters for `tripType = "trek"`. -/
theorem accepted_itinerary_day_distances_in_envelope
    (oracle : Oracle) (td : TripData) (tt : String) (res : List DayORS)
    (h : validateORSRoutesAndDistances oracle td tt = some res) :
    res.length = td.days.length ∧
    ∀ r ∈ res, r.dayDistance = segDistSum r.orsSegments ∧
      (tt = "bike" → 10000 ≤ r.dayDistance ∧ r.dayDistance ≤ 60000) ∧
      (tt = "trek" → 5000 ≤ r.dayDistance ∧ r.dayDistance ≤ 15000) := by
  rw [validateORSRoutesAndDistances] at h
  obtain ⟨hlen, hmem⟩ := daysLoop_spec _ _ _ _ _ _ h
  refine ⟨hlen, ?_⟩
  intro r hr
  obtain ⟨day, _, hpd⟩ := hmem r hr
  obtain ⟨hlo, hhi, hsum⟩ := processDay_spec _ _ _ _ _ _ hpd
  refine ⟨hsum, ?_, ?_⟩
  · intro htt
    subst htt
    have hb : dayDistanceLimits "bike" = (10000, 60000) := rfl
    rw [hb] at hlo hhi
    exact ⟨hlo, hhi⟩
  · intro htt
    subst htt
    have hb : dayDistanceLimits "trek" = (5000, 15000) := rfl
    rw [hb] at hlo hhi
    exact ⟨hlo, hhi⟩

/-- Witness for C1 at a concrete accepted candidate. -/
theorem accepted_itinerary_day_distances_in_envelope_witness :
    validateORSRoutesAndDistances okOracle tripAB "bike"
      = some [⟨12000, 3600, [⟨some 12000, some 3600⟩]⟩] ∧
    ((⟨12000, 3600, [⟨some 12000, some 3600⟩]⟩ : DayORS).dayDistance
        = segDistSum (⟨12000, 3600, [⟨some 12000, some 3600⟩]⟩ : DayORS).orsSegments ∧
      10000 ≤ (⟨12000, 3600, [⟨some 12000, some 3600⟩]⟩ : DayORS).dayDistance ∧
      (⟨12000, 3600, [⟨some 12000, some 3600⟩]⟩ : DayORS).dayDistance ≤ 60000) := by
  have hv : validateORSRoutesAndDistances okOracle tripAB "bike"
      = some [⟨12000, 3600, [⟨some 12000, some 3600⟩]⟩] := by
    norm_num [validateORSRoutesAndDistances, daysLoop, processDay, runDay,
      consecutivePairs, okOracle, tripAB, demoDay, cityA, cityB,
      dayDistanceLimits, orsProfile, wireReply]
  refine ⟨hv, ?_⟩
  obtain ⟨-, hmem⟩ := accepted_itinerary_day_distances_in_envelope okOracle
    tripAB "bike" _ hv
  obtain ⟨hsum, hbike, -⟩ :=
    hmem (⟨12000, 3600, [⟨some 12000, some 3600⟩]⟩ : DayORS) (by simp)
  exact ⟨hsum, hbike rfl⟩

end TripPlanner

namespace TripPlanner

/-- C2 counterexample: a candidate whose second segment's oracle reply
has a route with geometry but non-numeric summary fields — recorded as
`(distance: null, duration: null)` — is nonetheless accepted, because
the null segment is merely skipped in the day sum and the remaining
12 km lie inside the bike envelope.  This refutes the claim that such
a candidate is always rejected. -/
theorem null_segment_candidate_accepted :
    validateORSRoutesAndDistances nullSegOracle tripABC "bike"
      = some [nullSegResult] ∧
    Seg.mk none none ∈ nullSegResult.orsSegments := by
  constructor
  · norm_num [validateORSRoutesAndDistances, daysLoop, processDay, runDay,
      consecutivePairs, nullSegOracle, tripABC, demoDay, cityA, cityB, cityC,
      dayDistanceLimits, orsProfile, wireReply, nullSegResult]
  · simp [nullSegResult]

/-- C2 (amended): a `(null, null)` segment does not by itself reject a
candidate.  Whenever every segment's oracle reply carries a route with
geometry (numeric summary or not) and every day's sum of the numeric
segment distances lies within the trip-type envelope, the validator
accepts; rejection happens only on a thrown call, a response missing
route/geometry, or an out-of-envelope day sum. -/
theorem validator_null_segments_not_fatal
    (oracle : Oracle) (td : TripData) (tt : String)
    (h1 : ∀ day ∈ td.days, ∀ p ∈ consecutivePairs day.cities,
      isRouteReply (wireReply oracle (orsProfile tt) p) = true)
    (h2 : ∀ day ∈ td.days,
      (dayDistanceLimits tt).1 ≤ numericDaySum oracle (orsProfile tt) day.cities ∧
      numericDaySum oracle (orsProfile tt) day.cities ≤ (dayDistanceLimits tt).2) :
    (validateORSRoutesAndDistances oracle td tt).isSome = true := by
  rw [validateORSRoutesAndDistances]
  obtain ⟨res, hres⟩ := daysLoop_isSome _ _ _ _ td.days (fun day hd =>
    processDay_routes _ _ _ _ day (h1 day hd) (h2 day hd).1 (h2 day hd).2)
  rw [hres]
  rfl

/-- Witness for the amended C2 at the null-segment candidate. -/
theorem validator_null_segments_not_fatal_witness :
    (∀ day ∈ tripABC.days, ∀ p ∈ consecutivePairs day.cities,
      isRouteReply (wireReply nullSegOracle (orsProfile "bike") p) = true) ∧
    (∀ day ∈ tripABC.days,
      (dayDistanceLimits "bike").1
          ≤ numericDaySum nullSegOracle (orsProfile "bike") day.cities ∧
        numericDaySum nullSegOracle (orsProfile "bike") day.cities
          ≤ (dayDistanceLimits "bike").2) ∧
    (validateORSRoutesAndDistances nullSegOracle tripABC "bike").isSome = true := by
  have h1 : ∀ day ∈ tripABC.days, ∀ p ∈ consecutivePairs day.cities,
      isRouteReply (wireReply nullSegOracle (orsProfile "bike") p) = true := by
    decide
  have h2 : ∀ day ∈ tripABC.days,
      (dayDistanceLimits "bike").1
          ≤ numericDaySum nullSegOracle (orsProfile "bike") day.cities ∧
        numericDaySum nullSegOracle (orsProfile "bike") day.cities
          ≤ (dayDistanceLimits "bike").2 := by
    intro day hday
    have hd : day = demoDay [cityA, cityB, cityC] := by
      simpa [tripABC] using hday
    subst hd
    norm_num [numericDaySum, consecutivePairs, nullSegOracle, demoDay,
      cityA, cityB, cityC, dayDistanceLimits, wireReply, routeContribution]
  exact ⟨h1, h2, validator_null_segments_not_fatal nullSegOracle tripABC "bike" h1 h2⟩

/-- C10: a candidate containing a day with fewer than two waypoints is
rejected: the day has no consecutive pair, its accumulated distance
stays `0`, and `0` is strictly below the minimum of the envelope for
every trip type (`10000` for bike, `5000` otherwise). -/
theorem short_day_rejected (oracle : Oracle) (td : TripData) (tt : String)
    (h : ∃ day ∈ td.days, day.cities.length < 2) :
    validateORSRoutesAndDistances oracle td tt = none := by
  obtain ⟨day, hmem, hlen⟩ := h
  rw [validateORSRoutesAndDistances]
  apply daysLoop_none_of_mem _ _ _ _ _ day hmem
  have hpairs : consecutivePairs day.cities = [] := by
    rcases hcs : day.cities with _ | ⟨c, tl⟩
    · rfl
    · rcases tl with _ | ⟨d, tl'⟩
      · rfl
      · rw [hcs] at hlen
        simp only [List.length_cons] at hlen
        omega
  rw [processDay, hpairs]
  simp only [runDay]
  rw [if_pos]
  left
  by_cases htt : tt = "bike"
  · rw [dayDistanceLimits, if_pos htt]
    norm_num
  · rw [dayDistanceLimits, if_neg htt]
    norm_num

/-- Witness for C10 at a one-waypoint day. -/
theorem short_day_rejected_witness :
    (∃ day ∈ tripSolo.days, day.cities.length < 2) ∧
    validateORSRoutesAndDistances okOracle tripSolo "trek" = none :=
  ⟨⟨demoDay [cityA], by simp [tripSolo], by simp [demoDay]⟩,
    short_day_rejected okOracle tripSolo "trek"
      ⟨demoDay [cityA], by simp [tripSolo], by simp [demoDay]⟩⟩

/-- C7: a thrown oracle call (transport error or non-2xx status) or a
response missing route/geometry on any segment makes the validator
return the typed failure `(valid: false)` for the whole candidate — the
JS `try/catch` converts the throw into a return, so nothing propagates
past the validator — and the orchestrator treats it exactly like any
other validation failure: the loop moves on to the next attempt. -/
theorem oracle_failure_rejects_candidate_and_retries
    (oracle : Oracle) (td : TripData) (tt : String) (day : Day)
    (p : City × City) (hday : day ∈ td.days)
    (hp : p ∈ consecutivePairs day.cities)
    (hbad : wireReply oracle (orsProfile tt) p = .throwErr ∨
      wireReply oracle (orsProfile tt) p = .missing) :
    validateORSRoutesAndDistances oracle td tt = none ∧
    ∀ (llm : Nat → String) (parseFn : String → Option TripData)
      (r i : Nat) (lr : Option String) (lc vc : Nat),
      parseFn (llm i) = some td →
      loopGo llm parseFn
          (fun t => validateORSRoutesAndDistances oracle t tt)
          (r + 1) i lr lc vc =
        loopGo llm parseFn
          (fun t => validateORSRoutesAndDistances oracle t tt) r (i + 1)
          (some (llm i)) (lc + 1) (vc + 1) := by
  have hnone : validateORSRoutesAndDistances oracle td tt = none := by
    rw [validateORSRoutesAndDistances]
    apply daysLoop_none_of_mem _ _ _ _ _ day hday
    have hrun := runDay_none_of_bad oracle (orsProfile tt)
      (consecutivePairs day.cities) p hp hbad 0 0 []
    rw [processDay, hrun]
  refine ⟨hnone, ?_⟩
  intro llm parseFn r i lr lc vc hparse
  exact loopGo_step_validate_fail llm parseFn _ r i lr lc vc td hparse hnone

/-- Witness for C7 at an oracle whose every call throws. -/
theorem oracle_failure_rejects_candidate_and_retries_witness :
    ((cityA, cityB) ∈ consecutivePairs (demoDay [cityA, cityB]).cities) ∧
    validateORSRoutesAndDistances downOracle tripAB "bike" = none ∧
    loopGo (fun _ => junkReply) (fun _ => some tripAB)
        (fun t => validateORSRoutesAndDistances downOracle t "bike")
        1 0 none 0 0 =
      loopGo (fun _ => junkReply) (fun _ => some tripAB)
        (fun t => validateORSRoutesAndDistances downOracle t "bike") 0 1
        (some junkReply) 1 1 := by
  have h := oracle_failure_rejects_candidate_and_retries downOracle tripAB
    "bike" (demoDay [cityA, cityB]) (cityA, cityB) (by simp [tripAB])
    (by decide) (Or.inl rfl)
  exact ⟨by decide, h.1, h.2 _ _ 0 0 none 0 0 rfl⟩

end TripPlanner

namespace TripPlanner

/-- C4: when every one of the `maxRetries = 5` attempts fails — its
reply fails to parse, or the parsed candidate is rejected by the
validator — the orchestrator performs exactly 5 model calls, then
returns the failed outcome (carrying the last raw reply); it never
loops further and never returns an itinerary. -/
theorem orchestrator_exact_retry_bound
    (llm : Nat → String) (parseFn : String → Option TripData)
    (oracle : Oracle) (tt : String)
    (h : ∀ i, i < maxRetries → parseFn (llm i) = none ∨
      ∃ td, parseFn (llm i) = some td ∧
        validateORSRoutesAndDistances oracle td tt = none) :
    planTripWithOracle llm parseFn oracle tt = .failed (some (llm 4)) ∧
    (runPlanLoop llm parseFn
      (fun td => validateORSRoutesAndDistances oracle td tt)).llmCalls
        = maxRetries ∧
    (runPlanLoop llm parseFn
      (fun td => validateORSRoutesAndDistances oracle td tt)).foundValid
        = false := by
  have hall := loopGo_all_fail llm parseFn
    (fun td => validateORSRoutesAndDistances oracle td tt) 4 0 none 0 0
    (fun j hj => by simpa using h j (by simpa [maxRetries] using hj))
  have hrun : runPlanLoop llm parseFn
      (fun td => validateORSRoutesAndDistances oracle td tt) =
      loopGo llm parseFn
        (fun td => validateORSRoutesAndDistances oracle td tt)
        (4 + 1) 0 none 0 0 := rfl
  refine ⟨?_, ?_, ?_⟩
  · have hfail := planTrip_of_not_found llm parseFn
      (fun td => validateORSRoutesAndDistances oracle td tt)
      (by rw [hrun]; exact hall.1)
    have : planTripWithOracle llm parseFn oracle tt =
        planTrip llm parseFn
          (fun td => validateORSRoutesAndDistances oracle td tt) := rfl
    rw [this, hfail, hrun, hall.2.1]
  · rw [hrun, hall.2.2]
    rfl
  · rw [hrun, hall.1]

/-- Witness for C4: a model double whose candidate is always rejected
by the validator. -/
theorem orchestrator_exact_retry_bound_witness :
    (∀ i, i < maxRetries → (fun _ : String => some tripAB) ((fun _ => junkReply) i) = none ∨
      ∃ td, (fun _ : String => some tripAB) ((fun _ => junkReply) i) = some td ∧
        validateORSRoutesAndDistances downOracle td "bike" = none) ∧
    planTripWithOracle (fun _ => junkReply) (fun _ => some tripAB) downOracle
      "bike" = .failed (some junkReply) := by
  have hnone : validateORSRoutesAndDistances downOracle tripAB "bike" = none := by
    norm_num [validateORSRoutesAndDistances, daysLoop, processDay, runDay,
      consecutivePairs, downOracle, tripAB, demoDay, cityA, cityB,
      dayDistanceLimits, orsProfile, wireReply]
  have h : ∀ i, i < maxRetries →
      (fun _ : String => some tripAB) ((fun _ => junkReply) i) = none ∨
      ∃ td, (fun _ : String => some tripAB) ((fun _ => junkReply) i) = some td ∧
        validateORSRoutesAndDistances downOracle td "bike" = none :=
    fun _ _ => Or.inr ⟨tripAB, rfl, hnone⟩
  exact ⟨h, (orchestrator_exact_retry_bound (fun _ => junkReply)
    (fun _ => some tripAB) downOracle "bike" h).1⟩

/-- C5: an attempt whose reply fails to parse skips the validator (the
step equation leaves `validatorCalls` unchanged, so the routing oracle
is not consulted either); if all 5 attempts fail to parse, the failed
outcome carries the 5th attempt's raw text and the validator was called
zero times over the whole run. -/
theorem parse_failure_skips_validator
    (llm : Nat → String) (parseFn : String → Option TripData)
    (oracle : Oracle) (tt : String)
    (h : ∀ i, i < maxRetries → parseFn (llm i) = none) :
    planTripWithOracle llm parseFn oracle tt = .failed (some (llm 4)) ∧
    (runPlanLoop llm parseFn
      (fun td => validateORSRoutesAndDistances oracle td tt)).validatorCalls
        = 0 ∧
    (runPlanLoop llm parseFn
      (fun td => validateORSRoutesAndDistances oracle td tt)).llmCalls
        = maxRetries ∧
    ∀ (r i : Nat) (lr : Option String) (lc vc : Nat),
      parseFn (llm i) = none →
      loopGo llm parseFn
          (fun td => validateORSRoutesAndDistances oracle td tt)
          (r + 1) i lr lc vc =
        loopGo llm parseFn
          (fun td => validateORSRoutesAndDistances oracle td tt)
          r (i + 1) (some (llm i)) (lc + 1) vc := by
  have hall := loopGo_all_parse_fail llm parseFn
    (fun td => validateORSRoutesAndDistances oracle td tt) 4 0 none 0 0
    (fun j hj => by simpa using h j (by simpa [maxRetries] using hj))
  have hrun : runPlanLoop llm parseFn
      (fun td => validateORSRoutesAndDistances oracle td tt) =
      loopGo llm parseFn
        (fun td => validateORSRoutesAndDistances oracle td tt)
        (4 + 1) 0 none 0 0 := rfl
  refine ⟨?_, ?_, ?_, ?_⟩
  · have hfail := planTrip_of_not_found llm parseFn
      (fun td => validateORSRoutesAndDistances oracle td tt)
      (by rw [hrun]; exact hall.1)
    have heq : planTripWithOracle llm parseFn oracle tt =
        planTrip llm parseFn
          (fun td => validateORSRoutesAndDistances oracle td tt) := rfl
    rw [heq, hfail, hrun, hall.2.1]
  · rw [hrun, hall.2.2.2]
  · rw [hrun, hall.2.2.1]
    rfl
  · intro r i lr lc vc hp
    exact loopGo_step_parse_fail llm parseFn _ r i lr lc vc hp

/-- Witness for C5: a model double whose reply never parses. -/
theorem parse_failure_skips_validator_witness :
    (∀ i, i < maxRetries → (fun _ : String => (none : Option TripData))
      ((fun _ => junkReply) i) = none) ∧
    planTripWithOracle (fun _ => junkReply) (fun _ => none) downOracle "bike"
      = .failed (some junkReply) ∧
    (runPlanLoop (fun _ => junkReply) (fun _ => none)
      (fun td => validateORSRoutesAndDistances downOracle td "bike")).validatorCalls
        = 0 := by
  have h : ∀ i, i < maxRetries → (fun _ : String => (none : Option TripData))
      ((fun _ => junkReply) i) = none := fun _ _ => rfl
  have happ := parse_failure_skips_validator (fun _ => junkReply)
    (fun _ => none) downOracle "bike" h
  exact ⟨h, happ.1, happ.2.1⟩

/-- C6: finalization overwrites each day's `totalDistance`,
`estimatedTime`, per-segment `distances` and derived per-segment
`durations` with the oracle-measured values, and leaves every day's
waypoint list (`cities`, names and coordinates) and day index (`day`)
unchanged.  (The validator itself returns only measurements and never a
modified candidate, so validation cannot edit waypoints by
construction.) -/
theorem finalize_overwrites_measurements_preserves_waypoints
    (td : TripData) (ors : List DayORS) :
    (finalizeTripData td ors).days.map Day.cities = td.days.map Day.cities ∧
    (finalizeTripData td ors).days.map Day.day = td.days.map Day.day ∧
    ∀ (i : Nat) (day : Day) (o : DayORS),
      td.days.get? i = some day → ors.get? i = some o →
      (finalizeTripData td ors).days.get? i = some
        { day with
          totalDistance := fmtKm o.dayDistance
          estimatedTime := fmtHours o.dayDuration
          distances := o.orsSegments.map fun seg =>
            match seg.distance with
            | some d => fmtKm d
            | none => "N/A"
          durations := o.orsSegments.map fun seg =>
            match seg.duration with
            | some du => fmtMin du
            | none => "N/A" } := by
  refine ⟨finalizeDays_map_cities td.days ors,
    finalizeDays_map_day td.days ors, ?_⟩
  intro i day o hd ho
  exact finalizeDays_get td.days ors i day o hd ho

/-- Witness for C6 at the accepted null-segment fixture. -/
theorem finalize_overwrites_measurements_preserves_waypoints_witness :
    tripABC.days.get? 0 = some (demoDay [cityA, cityB, cityC]) ∧
    [nullSegResult].get? 0 = some nullSegResult ∧
    (finalizeTripData tripABC [nullSegResult]).days.get? 0 = some
      { demoDay [cityA, cityB, cityC] with
        totalDistance := fmtKm nullSegResult.dayDistance
        estimatedTime := fmtHours nullSegResult.dayDuration
        distances := nullSegResult.orsSegments.map fun seg =>
          match seg.distance with
          | some d => fmtKm d
          | none => "N/A"
        durations := nullSegResult.orsSegments.map fun seg =>
          match seg.duration with
          | some du => fmtMin du
          | none => "N/A" } :=
  ⟨rfl, rfl,
    (finalize_overwrites_measurements_preserves_waypoints tripABC
      [nullSegResult]).2.2 0 _ _ rfl rfl⟩

end TripPlanner

namespace TripPlanner

/-- C3 counterexample: on the text `() x ()` (with braces for the
parentheses), direct `JSON.parse` fails and the first balanced brace
block strict-parses, so under the claim the attempt would not be a
parse failure; but the stage implemented in `trip.js` applies the
greedy regex, obtaining the whole text, whose parse fails — the
attempt IS counted as a parse failure. -/
theorem parse_stage_not_first_balanced_block :
    jsonValid twoBlockText = false ∧
    firstBalancedBlockSpec twoBlockText = some emptyObjText ∧
    jsonValid emptyObjText = true ∧
    parseAttemptOk twoBlockText = false := by decide

/-- C3 (amended): the parse stage applies the greedy regex first: when
the text has a brace-open with a later brace-close, the span from the
first brace-open to the last brace-close — and only that span — is
strict-parsed; only when no such span exists is the full text parsed
directly; the attempt is a parse failure iff the one parse attempted
fails. -/
theorem parse_stage_greedy_extraction (s : String) :
    (∀ m, extractGreedy s = some m →
      (∃ a b : List Char, s.data = a ++ m.data ++ b ∧
        (∀ x ∈ a, ¬ x = lbraceChar) ∧ (∀ x ∈ b, ¬ x = rbraceChar) ∧
        m.data.head? = some lbraceChar ∧
        m.data.getLast? = some rbraceChar) ∧
      parseAttemptOk s = jsonValid m) ∧
    (extractGreedy s = none → parseAttemptOk s = jsonValid s) := by
  constructor
  · intro m hm
    have hL : extractGreedyL s.data = some m.data := by
      rw [extractGreedy] at hm
      cases hE : extractGreedyL s.data with
      | none => rw [hE] at hm; simp at hm
      | some l =>
        rw [hE] at hm
        simp only [Option.map_some', Option.some.injEq] at hm
        rw [← hm]
    refine ⟨extractGreedyL_spec s.data m.data hL, ?_⟩
    simp only [parseAttemptOk, hm]
  · intro hnone
    simp only [parseAttemptOk, hnone]

/-- Witness for the amended C3 at the two-block text, on which the
greedy span is the whole text. -/
theorem parse_stage_greedy_extraction_witness :
    extractGreedy twoBlockText = some twoBlockText ∧
    ((∃ a b : List Char,
        twoBlockText.data = a ++ twoBlockText.data ++ b ∧
        (∀ x ∈ a, ¬ x = lbraceChar) ∧ (∀ x ∈ b, ¬ x = rbraceChar) ∧
        twoBlockText.data.head? = some lbraceChar ∧
        twoBlockText.data.getLast? = some rbraceChar) ∧
      parseAttemptOk twoBlockText = jsonValid twoBlockText) :=
  ⟨by decide,
    (parse_stage_greedy_extraction twoBlockText).1 twoBlockText (by decide)⟩

/-- C8 (code bug): `validateCountry` never compares the normalized
resolved name with the normalized input — the `normalize` helper next
to it is dead code, despite the adjacent comment "Strict country
validation: get country code and match name".  A geocoder response
resolving a misspelled input to Germany is accepted (`isValid: true`,
code `DE`) and the flow proceeds to the city lookup, although the
normalized names differ. -/
theorem validateCountry_accepts_mismatched_name :
    (validateCountry germanyResp).isValid = true ∧
    (validateCountry germanyResp).countryCode = some "DE" ∧
    ¬ normalize "Germanyy" = normalize "Germany" ∧
    (handleSubmit germanyResp berlinGeo "Berlin").cityCallCodes
      = [some "DE"] := by decide

/-- C9: `validateCity` is reached only after `validateCountry`
succeeded for the request, and then always with a non-empty country
code (`validateCountry`'s success paths produce either the top hit's
upper-cased code or the fallback `"IL"`); `validateCity` itself
returns `isValid: false` at once on a missing or empty code; and a
failure at either stage returns before the `/api/trip/plan` call is
issued. -/
theorem geocoding_gate_ordering
    (countryGeo : Option (List GeoPlace))
    (cityGeo : String → String → Option (List GeoPlace))
    (cityName : String) :
    (∀ code ∈ (handleSubmit countryGeo cityGeo cityName).cityCallCodes,
      (validateCountry countryGeo).isValid = true ∧
      ∃ c, code = some c ∧ ¬ c = "") ∧
    (∀ (g : String → String → Option (List GeoPlace)) (cn : String),
      (validateCity g cn none).isValid = false ∧
      (validateCity g cn (some "")).isValid = false) ∧
    ((handleSubmit countryGeo cityGeo cityName).planCalled = true →
      (validateCountry countryGeo).isValid = true ∧
      (validateCity cityGeo cityName
        (validateCountry countryGeo).countryCode).isValid = true) := by
  refine ⟨?_, ?_, ?_⟩
  · intro code hcode
    simp only [handleSubmit] at hcode
    split_ifs at hcode with h1 h2
    · obtain ⟨c, hc, hne⟩ := validateCountry_isValid_code countryGeo h1
      have : code = (validateCountry countryGeo).countryCode := by
        simpa using hcode
      exact ⟨h1, c, by rw [this, hc], hne⟩
    · obtain ⟨c, hc, hne⟩ := validateCountry_isValid_code countryGeo h1
      have : code = (validateCountry countryGeo).countryCode := by
        simpa using hcode
      exact ⟨h1, c, by rw [this, hc], hne⟩
    · simp at hcode
  · intro g cn
    exact ⟨rfl, rfl⟩
  · intro hplan
    simp only [handleSubmit] at hplan
    split_ifs at hplan with h1 h2
    exact ⟨h1, h2⟩

/-- Witness for C9 at a run whose both stages succeed. -/
theorem geocoding_gate_ordering_witness :
    (handleSubmit germanyResp berlinGeo "Berlin").planCalled = true ∧
    ((validateCountry germanyResp).isValid = true ∧
      (validateCity berlinGeo "Berlin"
        (validateCountry germanyResp).countryCode).isValid = true) :=
  ⟨by decide,
    (geocoding_gate_ordering germanyResp berlinGeo "Berlin").2.2 (by decide)⟩

end TripPlanner
